import Mathlib

/-
Verification of the Raspberry-Pi-DRAM-PUF serial session engine
(src/SerialReader/runner.cpp) against its natural-language specification.

The embedding below translates the two source files byte-for-byte where
possible:
- SerialReader::Runner::loop (runner.cpp lines 105-219) becomes a pure
  step function `loopStep` over an explicit `LoopState`, iterated by
  `loopRun` over the list of bytes delivered by the serial reads (the
  BUFFER_SIZE-chunked reads consume the stream sequentially, so the
  concatenated byte list is an exact model).
- the two SerialReader::run overloads (lines 13-22 and 73-81) become
  `runMulti` and `runSingle`, driving one `loopRun` pass per round over a
  list of per-round byte streams.
- gen_key (lines 27-69) post-capture scan becomes `gen_key` below; the
  C pointer walk past the end of the capture buffer and the unchecked
  writes into the key_size buffer are made observable as explicit
  `GenKeyResult.oob` / `GenKeyResult.overflow` outcomes.
- the injector thread body (lines 165-180) becomes `injectorSend` /
  `injectorRun`, with the cooperative may-send polling abstracted as a
  grant budget.
-/

/-- A byte of the serial stream. The C code compares `char` values for
equality only (ARM `char` is unsigned, 0..255), so `Nat` is a faithful
carrier. -/
abbrev Byte := Nat

/-- Modelled from the spec: the six two-byte marker signatures
(START_1/START_2, ..., PANIC_1/PANIC_2) are configuration constants whose
definitions live in the missing header runner.h; the spec states they are
six independently configurable two-byte signatures, so they are carried as
parameters here. -/
structure MarkerConfig where
  start1 : Byte
  start2 : Byte
  end1 : Byte
  end2 : Byte
  loaded1 : Byte
  loaded2 : Byte
  askInput1 : Byte
  askInput2 : Byte
  finished1 : Byte
  finished2 : Byte
  panic1 : Byte
  panic2 : Byte
deriving DecidableEq

/-- The six marker events of the scanner. -/
inductive MarkerEvent where
  | estart
  | eend
  | eloaded
  | easkInput
  | efinished
  | epanic
deriving DecidableEq

/-- The marker that fires for the pair (lastChar, in), mirroring the
priority if/else chain of runner.cpp lines 146-201: START, END, LOADED,
ASK_INPUT, FINISHED, PANIC; at most one fires. -/
def firedEvent (cfg : MarkerConfig) (lastChar b : Byte) : Option MarkerEvent :=
  if cfg.start1 = lastChar ∧ cfg.start2 = b then some .estart
  else if cfg.end1 = lastChar ∧ cfg.end2 = b then some .eend
  else if cfg.loaded1 = lastChar ∧ cfg.loaded2 = b then some .eloaded
  else if cfg.askInput1 = lastChar ∧ cfg.askInput2 = b then some .easkInput
  else if cfg.finished1 = lastChar ∧ cfg.finished2 = b then some .efinished
  else if cfg.panic1 = lastChar ∧ cfg.panic2 = b then some .epanic
  else none

/-- State of one Runner::loop pass (runner.cpp lines 105-219) plus the
Runner members that the pass reads and writes: `count` is the round
counter passed by reference, `expectInput` the Runner member polled by the
injector, `sink` the sequence of bytes written to pufOutput, `injAlive`
whether an injector thread pointer is live. -/
structure LoopState where
  lastChar : Byte
  writePuf : Bool
  interrupt : Bool
  charCount : Nat
  count : Nat
  running : Bool
  expectInput : Bool
  injAlive : Bool
  sink : List Byte
deriving DecidableEq

/-- One iteration of the `while (!interrupt)` body for byte `b`
(runner.cpp lines 136-212): the marker chain, then the deferred write
`if (writePuf && charCount > 1) pufOutput << lastChar;`, then
`lastChar = in;`, then `if (writePuf) ++charCount;`. -/
def loopStep (cfg : MarkerConfig) (maxMeasures : Nat) (s : LoopState) (b : Byte) : LoopState :=
  let s1 :=
    match firedEvent cfg s.lastChar b with
    | some .estart => { s with writePuf := true, injAlive := false }
    | some .eend =>
        { s with count := s.count + 1, writePuf := false,
                 running := if 0 < maxMeasures ∧ maxMeasures ≤ s.count + 1 then false
                            else s.running }
    | some .eloaded => { s with injAlive := true }
    | some .easkInput => { s with expectInput := true }
    | some .efinished => { s with interrupt := true, injAlive := false }
    | some .epanic => { s with interrupt := true, injAlive := false }
    | none => s
  let s2 := if s1.writePuf ∧ 1 < s1.charCount then { s1 with sink := s1.sink ++ [s.lastChar] }
            else s1
  let s3 := { s2 with lastChar := b }
  if s3.writePuf then { s3 with charCount := s3.charCount + 1 } else s3

/-- One Runner::loop pass over a byte stream: bytes are consumed while
`!interrupt`, exactly as the read loop of runner.cpp lines 130-213. -/
def loopRun (cfg : MarkerConfig) (maxMeasures : Nat) : LoopState → List Byte → LoopState
  | s, [] => s
  | s, b :: bs =>
      if s.interrupt then s else loopRun cfg maxMeasures (loopStep cfg maxMeasures s b) bs

/-- State of one pass at entry (runner.cpp lines 106-113): lastChar is a
space, capture off, interrupt clear, charCount zero, running true, no
injector thread; `count` and `expectInput` persist from the Runner, and
`sink` is the stream contents already present (empty for a fresh file). -/
def initLoopState (count : Nat) (expectInput : Bool) (sink : List Byte) : LoopState :=
  { lastChar := 32, writePuf := false, interrupt := false, charCount := 0,
    count := count, running := true, expectInput := expectInput, injAlive := false,
    sink := sink }

/-- Number of END events that fire during one pass started with the given
lastChar, counting only events reached before FINISHED or PANIC sets the
interrupt flag. Depends only on the byte stream, since lastChar evolves as
the previous stream byte. -/
def passEndCount (cfg : MarkerConfig) : Byte → List Byte → Nat
  | _, [] => 0
  | last, b :: bs =>
      match firedEvent cfg last b with
      | some .eend => passEndCount cfg b bs + 1
      | some .efinished => 0
      | some .epanic => 0
      | some .estart => passEndCount cfg b bs
      | some .eloaded => passEndCount cfg b bs
      | some .easkInput => passEndCount cfg b bs
      | none => passEndCount cfg b bs

/-- State of the driver loop in the two SerialReader::run overloads:
`running` and `count` of the while condition, the persistent Runner member
`expectInput`, the number of rounds begun, and the in-memory sink
(accumulated across rounds only in single-shot mode). -/
structure DriverState where
  running : Bool
  count : Nat
  expectInput : Bool
  roundsStarted : Nat
  sink : List Byte
deriving DecidableEq

/-- Driver state at entry of either run overload: running true, count 0.
The initial value of the Runner member expectInput is not in src
(runner.h is missing); it does not affect any transition below and is
taken as false. -/
def initDriver : DriverState :=
  { running := true, count := 0, expectInput := false, roundsStarted := 0, sink := [] }

/-- Multi-round driver, SerialReader::run(Parser&) (runner.cpp lines
13-22): `while (running)` open a fresh file sink, reset power, run one
pass; each element of the stream list is the byte stream one pass reads. -/
def runMulti (cfg : MarkerConfig) (maxMeasures : Nat) (d : DriverState) :
    List (List Byte) → DriverState
  | [] => d
  | st :: sts =>
      if d.running then
        let f := loopRun cfg maxMeasures (initLoopState d.count d.expectInput []) st
        runMulti cfg maxMeasures
          { running := f.running, count := f.count, expectInput := f.expectInput,
            roundsStarted := d.roundsStarted + 1, sink := f.sink } sts
      else d

/-- Single-shot driver, SerialReader::run(Parser&, ostream&) (runner.cpp
lines 73-81): `while (running && count == 0)`, the one ostringstream sink
being shared by all rounds. -/
def runSingle (cfg : MarkerConfig) (maxMeasures : Nat) (d : DriverState) :
    List (List Byte) → DriverState
  | [] => d
  | st :: sts =>
      if d.running ∧ d.count = 0 then
        let f := loopRun cfg maxMeasures (initLoopState d.count d.expectInput d.sink) st
        runSingle cfg maxMeasures
          { running := f.running, count := f.count, expectInput := f.expectInput,
            roundsStarted := d.roundsStarted + 1, sink := f.sink } sts
      else d

/-- Bytes the injector transmits for one released parameter (runner.cpp
lines 171-178): serialPuts of the parameter string, flush, settle wait,
then serialPuts of a bare carriage return (13) and flush. -/
def injectorSend (p : List Byte) : List Byte := p ++ [13]

/-- The injector thread body (runner.cpp lines 165-180): for each script
parameter it polls until the may-send signal is set (or returns when
cancelled). The cooperative polling is abstracted by a grant budget: the
number of may-send releases the task observes before cancellation; each
grant releases exactly one parameter in order, and a cancelled task sends
nothing further. -/
def injectorRun : Nat → List (List Byte) → List Byte
  | _, [] => []
  | 0, _ :: _ => []
  | g + 1, p :: ps => injectorSend p ++ injectorRun g ps

/-- Result of the gen_key bit scan (runner.cpp lines 44-67). `ok` is the
normal exit (the position stream ran out); `oob` flags the pointer `in`
being dereferenced past the end of the captured byte sequence (the C code
has no end-of-input check and walks into the terminating NUL and beyond);
`overflow` flags a write `result[index++]` with index at or past the
key_size buffer (the C code has no bounds check). Each failure carries the
characters written so far. -/
inductive GenKeyResult where
  | ok (key : List Char)
  | oob (written : List Char)
  | overflow (written : List Char)
deriving DecidableEq

/-- State of the gen_key scan: the bit counter `count`, next write index
`idx`, the look-ahead position `nextBit` with the positions still unread
in `pending`, the characters written, and the `nextLine` flag. -/
structure ScanState where
  count : Nat
  idx : Nat
  nextBit : Nat
  pending : List Nat
  written : List Char
  nextLine : Bool
deriving DecidableEq

/-- Bit `shift` of byte `b`, as in `(*in >> shift) & 1`. -/
def byteBit (b : Byte) (shift : Nat) : Nat := b / 2 ^ shift % 2

/-- The character written for one selected bit: `((*in >> shift) & 1) + '0'`. -/
def bitChar (b : Byte) (shift : Nat) : Char := if byteBit b shift = 1 then '1' else '0'

/-- The inner for loop of gen_key (runner.cpp lines 52-60) over the shift
list [7,...,0] of one byte: the loop condition rechecks nextLine; on
`count == nextBit` the bit character is stored at result[index++] (an
unchecked write, flagged as overflow when index is out of bounds) and the
next position is read, clearing nextLine when the position stream is
exhausted; `count` is incremented for every bit examined. -/
def scanBits (keySize : Nat) (b : Byte) : List Nat → ScanState → Except GenKeyResult ScanState
  | [], st => .ok st
  | shift :: rest, st =>
      if st.nextLine = false then .ok st
      else if st.count = st.nextBit then
        if st.idx < keySize then
          match st.pending with
          | [] =>
              scanBits keySize b rest
                { st with written := st.written ++ [bitChar b shift], idx := st.idx + 1,
                          nextLine := false, count := st.count + 1 }
          | n :: ns =>
              scanBits keySize b rest
                { st with written := st.written ++ [bitChar b shift], idx := st.idx + 1,
                          nextBit := n, pending := ns, count := st.count + 1 }
        else .error (.overflow st.written)
      else scanBits keySize b rest { st with count := st.count + 1 }

/-- The outer while loop of gen_key (runner.cpp lines 50-67): before the
comma each byte is only tested against the comma; after it each byte is
scanned bit by bit; `in++` advances through the capture with no
end-of-input test, so exhausting the capture while nextLine is still true
is the out-of-bounds walk, reported as `oob`. -/
def genKeyGo (keySize : Nat) : List Byte → Bool → ScanState → GenKeyResult
  | [], _, st => .oob st.written
  | b :: rest, commaFound, st =>
      if commaFound then
        match scanBits keySize b [7, 6, 5, 4, 3, 2, 1, 0] st with
        | .error r => r
        | .ok st1 =>
            if st1.nextLine then genKeyGo keySize rest true st1 else .ok st1.written
      else genKeyGo keySize rest (if b = 44 then true else commaFound) st

/-- The gen_key scan (runner.cpp lines 41-68) applied to a captured byte
sequence and a parsed position list. The initial `pos_file >> nextBit`
yields the first position, or 0 with the stream failed when the list is
empty (C++11 extraction writes 0 on failure), which coincides with taking
nextBit = 0 and no pending positions. -/
def gen_key (keySize : Nat) (capture : List Byte) (posList : List Nat) : GenKeyResult :=
  genKeyGo keySize capture false
    { count := 0, idx := 0, nextBit := posList.headD 0, pending := posList.tail,
      written := [], nextLine := true }

/-- The first bytes of the six marker signatures, in priority order. A
pair (lastChar, b) can only fire a marker whose first byte equals
lastChar. -/
def markerFirsts (cfg : MarkerConfig) : List Byte :=
  [cfg.start1, cfg.end1, cfg.loaded1, cfg.askInput1, cfg.finished1, cfg.panic1]

/-- A concrete marker configuration with twelve pairwise distinct byte
values, used to instantiate the parametric theorems. -/
def cfgW : MarkerConfig := ⟨1, 2, 3, 4, 5, 6, 7, 8, 9, 10, 11, 12⟩

/-- A concrete mid-pass state whose lastChar is the first END byte of
cfgW. -/
def sE5 : LoopState :=
  { lastChar := 3, writePuf := false, interrupt := false, charCount := 0, count := 5,
    running := true, expectInput := false, injAlive := false, sink := [] }

/-- A concrete mid-pass state whose lastChar is the first PANIC byte of
cfgW. -/
def sP5 : LoopState :=
  { lastChar := 11, writePuf := false, interrupt := false, charCount := 0, count := 5,
    running := true, expectInput := false, injAlive := false, sink := [] }

/-- A concrete mid-pass state after a completed first capture: lastChar is
the first START byte of cfgW and the in-capture byte counter is already 2. -/
def sC9 : LoopState :=
  { lastChar := 1, writePuf := false, interrupt := false, charCount := 2, count := 1,
    running := true, expectInput := false, injAlive := false, sink := [9] }

/-- A concrete mid-pass state whose lastChar is the first START byte of
cfgW and whose may-send signal is clear. -/
def sC10 : LoopState :=
  { lastChar := 1, writePuf := false, interrupt := false, charCount := 0, count := 0,
    running := true, expectInput := false, injAlive := false, sink := [] }

/-- A concrete mid-pass state whose lastChar is the first ASK_INPUT byte
of cfgW. -/
def sC10b : LoopState :=
  { lastChar := 7, writePuf := false, interrupt := false, charCount := 0, count := 0,
    running := true, expectInput := false, injAlive := false, sink := [] }

/-- A pass whose interrupt flag is set consumes no further bytes. -/
theorem loopRun_interrupt (cfg : MarkerConfig) (m : Nat) (s : LoopState) (l : List Byte)
    (h : s.interrupt = true) : loopRun cfg m s l = s := by
  cases l with
  | nil => rfl
  | cons b bs => simp [loopRun, h]

/-- The step always records the current byte as the next lastChar. -/
theorem loopStep_lastChar (cfg : MarkerConfig) (m : Nat) (s : LoopState) (b : Byte) :
    (loopStep cfg m s b).lastChar = b := by
  rcases h : firedEvent cfg s.lastChar b with _ | ev
  · simp [loopStep, h]
    split_ifs <;> rfl
  · cases ev <;> simp [loopStep, h] <;> split_ifs <;> rfl

/-- The round counter changes exactly on END steps, by one. -/
theorem loopStep_count (cfg : MarkerConfig) (m : Nat) (s : LoopState) (b : Byte) :
    (loopStep cfg m s b).count =
      if firedEvent cfg s.lastChar b = some .eend then s.count + 1 else s.count := by
  rcases h : firedEvent cfg s.lastChar b with _ | ev
  · simp [loopStep, h]
    split_ifs <;> rfl
  · cases ev <;> simp [loopStep, h] <;> split_ifs <;> rfl

/-- The interrupt flag is set exactly by FINISHED and PANIC steps. -/
theorem loopStep_interrupt (cfg : MarkerConfig) (m : Nat) (s : LoopState) (b : Byte) :
    (loopStep cfg m s b).interrupt =
      if firedEvent cfg s.lastChar b = some .efinished ∨
         firedEvent cfg s.lastChar b = some .epanic then true else s.interrupt := by
  rcases h : firedEvent cfg s.lastChar b with _ | ev
  · simp [loopStep, h]
    split_ifs <;> rfl
  · cases ev <;> simp [loopStep, h] <;> split_ifs <;> rfl

/-- The in-capture byte counter never decreases on a step. -/
theorem loopStep_charCount_le (cfg : MarkerConfig) (m : Nat) (s : LoopState) (b : Byte) :
    s.charCount ≤ (loopStep cfg m s b).charCount := by
  rcases h : firedEvent cfg s.lastChar b with _ | ev
  · simp [loopStep, h]
    split_ifs <;> simp
  · cases ev <;> simp [loopStep, h] <;> split_ifs <;> simp

/-- The may-send signal is set exactly by ASK_INPUT steps and never
cleared by the scanner. -/
theorem loopStep_expectInput (cfg : MarkerConfig) (m : Nat) (s : LoopState) (b : Byte) :
    (loopStep cfg m s b).expectInput =
      if firedEvent cfg s.lastChar b = some .easkInput then true else s.expectInput := by
  rcases h : firedEvent cfg s.lastChar b with _ | ev
  · simp [loopStep, h]
    split_ifs <;> rfl
  · cases ev <;> simp [loopStep, h] <;> split_ifs <;> rfl

/-- The keep-going flag is cleared exactly by an END step that reaches a
positive configured maximum. -/
theorem loopStep_running (cfg : MarkerConfig) (m : Nat) (s : LoopState) (b : Byte) :
    (loopStep cfg m s b).running =
      if firedEvent cfg s.lastChar b = some .eend ∧ 0 < m ∧ m ≤ s.count + 1 then false
      else s.running := by
  rcases h : firedEvent cfg s.lastChar b with _ | ev
  · simp [loopStep, h]
    split_ifs <;> rfl
  · cases ev <;> simp [loopStep, h] <;> split_ifs <;> simp_all

/-- Over a whole pass, the round counter advances by exactly the number of
END events that fire before the pass is interrupted. -/
theorem loopRun_count_passEnd (cfg : MarkerConfig) (m : Nat) :
    ∀ (l : List Byte) (s : LoopState), s.interrupt = false →
      (loopRun cfg m s l).count = s.count + passEndCount cfg s.lastChar l := by
  intro l
  induction l with
  | nil => intro s _; rfl
  | cons b bs ih =>
      intro s h
      have hl := loopStep_lastChar cfg m s b
      have hcnt := loopStep_count cfg m s b
      have hint := loopStep_interrupt cfg m s b
      simp only [loopRun, h, Bool.false_eq_true, if_false]
      rcases hev : firedEvent cfg s.lastChar b with _ | ev
      · rw [ih _ (by rw [hint]; simp [hev, h]), hcnt, hl]
        simp [passEndCount, hev]
      · cases ev with
        | estart =>
            rw [ih _ (by rw [hint]; simp [hev, h]), hcnt, hl]
            simp [passEndCount, hev]
        | eend =>
            rw [ih _ (by rw [hint]; simp [hev, h]), hcnt, hl]
            simp [passEndCount, hev]
            omega
        | eloaded =>
            rw [ih _ (by rw [hint]; simp [hev, h]), hcnt, hl]
            simp [passEndCount, hev]
        | easkInput =>
            rw [ih _ (by rw [hint]; simp [hev, h]), hcnt, hl]
            simp [passEndCount, hev]
        | efinished =>
            rw [loopRun_interrupt _ _ _ _ (by rw [hint]; simp [hev]), hcnt]
            simp [passEndCount, hev]
        | epanic =>
            rw [loopRun_interrupt _ _ _ _ (by rw [hint]; simp [hev]), hcnt]
            simp [passEndCount, hev]

/-- The in-capture byte counter never decreases across a pass. -/
theorem loopRun_charCount_le (cfg : MarkerConfig) (m : Nat) :
    ∀ (l : List Byte) (s : LoopState), s.charCount ≤ (loopRun cfg m s l).charCount := by
  intro l
  induction l with
  | nil => intro s; exact Nat.le_refl _
  | cons b bs ih =>
      intro s
      by_cases h : s.interrupt = true
      · simp [loopRun, h]
      · simp only [loopRun, h, if_false]
        exact Nat.le_trans (loopStep_charCount_le cfg m s b) (ih _)

/-- A set may-send signal survives the rest of the pass: no scanner branch
clears it. -/
theorem loopRun_expectInput_true (cfg : MarkerConfig) (m : Nat) :
    ∀ (l : List Byte) (s : LoopState), s.expectInput = true →
      (loopRun cfg m s l).expectInput = true := by
  intro l
  induction l with
  | nil => intro s h; exact h
  | cons b bs ih =>
      intro s h
      by_cases hi : s.interrupt = true
      · simp [loopRun, hi, h]
      · simp only [loopRun, hi, if_false]
        refine ih _ ?_
        rw [loopStep_expectInput]
        split_ifs <;> simp [h]

/-- With a positive maximum, keep-going tracks the round counter through a
pass: the final running flag is true exactly when the final counter is
still below the maximum, provided the flag and counter agreed at entry. -/
theorem loopRun_running_inv (cfg : MarkerConfig) (m : Nat) (hm : 0 < m) :
    ∀ (l : List Byte) (s : LoopState), (s.running = true ↔ s.count < m) →
      ((loopRun cfg m s l).running = true ↔ (loopRun cfg m s l).count < m) := by
  intro l
  induction l with
  | nil => intro s h; exact h
  | cons b bs ih =>
      intro s h
      by_cases hi : s.interrupt = true
      · simp only [loopRun, hi, if_true]
        exact h
      · simp only [loopRun, hi, if_false]
        refine ih _ ?_
        rw [loopStep_running, loopStep_count]
        rcases hev : firedEvent cfg s.lastChar b with _ | ev
        · simpa [hev] using h
        · by_cases he : ev = MarkerEvent.eend
          · subst he
            by_cases hle : m ≤ s.count + 1
            · simp [hev, hm, hle]
            · simp [hev, hle]
              rw [h]
              omega
          · simpa [hev, he] using h

/-- A pair whose lastChar differs from every marker first byte fires no
event. -/
theorem firedEvent_none_of (cfg : MarkerConfig) (last b : Byte)
    (h : ∀ x ∈ markerFirsts cfg, x ≠ last) : firedEvent cfg last b = none := by
  have h1 := h cfg.start1 (by simp [markerFirsts])
  have h2 := h cfg.end1 (by simp [markerFirsts])
  have h3 := h cfg.loaded1 (by simp [markerFirsts])
  have h4 := h cfg.askInput1 (by simp [markerFirsts])
  have h5 := h cfg.finished1 (by simp [markerFirsts])
  have h6 := h cfg.panic1 (by simp [markerFirsts])
  simp [firedEvent, h1, h2, h3, h4, h5, h6]

/-- The configured START pair always fires START, the first entry of the
priority chain. -/
theorem firedEvent_start_pair (cfg : MarkerConfig) :
    firedEvent cfg cfg.start1 cfg.start2 = some .estart := by
  simp [firedEvent]

/-- The configured END pair fires END when the two signatures differ in
their first byte. -/
theorem firedEvent_end_pair (cfg : MarkerConfig) (h : cfg.start1 ≠ cfg.end1) :
    firedEvent cfg cfg.end1 cfg.end2 = some .eend := by
  simp [firedEvent, h]

/-- C1 (amended): for the input byte sequence START sentinel, payload
65 66 67, END sentinel, processed by one pass from outside capture state,
the capture payload written to the sink is exactly [65, 66, 67]: the four
sentinel bytes are excluded, and the byte immediately before the END
sentinel is included. The two-step write suppression after START drops
exactly the two START bytes, and the one-byte-deferred write drops the END
bytes because capture state is already cleared when the second END byte
arrives. -/
theorem C1_framing_payload (cfg : MarkerConfig) (m : Nat)
    (hfree : ∀ x ∈ markerFirsts cfg, x ∉ ([32, cfg.start2, 65, 66, 67] : List Byte))
    (hse : cfg.start1 ≠ cfg.end1) :
    (loopRun cfg m (initLoopState 0 false [])
        [cfg.start1, cfg.start2, 65, 66, 67, cfg.end1, cfg.end2]).sink = [65, 66, 67] := by
  have n32 : ∀ x ∈ markerFirsts cfg, x ≠ 32 := by
    intro x hx heq
    exact hfree x hx (by simp [heq])
  have ns2 : ∀ x ∈ markerFirsts cfg, x ≠ cfg.start2 := by
    intro x hx heq
    exact hfree x hx (by simp [heq])
  have n65 : ∀ x ∈ markerFirsts cfg, x ≠ 65 := by
    intro x hx heq
    exact hfree x hx (by simp [heq])
  have n66 : ∀ x ∈ markerFirsts cfg, x ≠ 66 := by
    intro x hx heq
    exact hfree x hx (by simp [heq])
  have n67 : ∀ x ∈ markerFirsts cfg, x ≠ 67 := by
    intro x hx heq
    exact hfree x hx (by simp [heq])
  have e1 := firedEvent_none_of cfg 32 cfg.start1 n32
  have e2 := firedEvent_start_pair cfg
  have e3 := firedEvent_none_of cfg cfg.start2 65 ns2
  have e4 := firedEvent_none_of cfg 65 66 n65
  have e5 := firedEvent_none_of cfg 66 67 n66
  have e6 := firedEvent_none_of cfg 67 cfg.end1 n67
  have e7 := firedEvent_end_pair cfg hse
  simp [loopRun, loopStep, initLoopState, e1, e2, e3, e4, e5, e6, e7]

/-- Closed instance of the amended C1 framing statement at the concrete
configuration. -/
theorem C1_framing_payload_witness :
    (∀ x ∈ markerFirsts cfgW, x ∉ ([32, cfgW.start2, 65, 66, 67] : List Byte))
    ∧ cfgW.start1 ≠ cfgW.end1
    ∧ (loopRun cfgW 0 (initLoopState 0 false [])
        [cfgW.start1, cfgW.start2, 65, 66, 67, cfgW.end1, cfgW.end2]).sink = [65, 66, 67] :=
  ⟨by decide, by decide, C1_framing_payload cfgW 0 (by decide) (by decide)⟩

/-- C1 as stated is false: at a concrete distinct-marker configuration the
pass over START, 65, 66, 67, END writes payload [65, 66, 67], not
[65, 66]. -/
theorem C1_counterexample :
    (loopRun cfgW 0 (initLoopState 0 false []) [1, 2, 65, 66, 67, 3, 4]).sink = [65, 66, 67]
    ∧ (loopRun cfgW 0 (initLoopState 0 false []) [1, 2, 65, 66, 67, 3, 4]).sink ≠ [65, 66] := by
  decide

/-- C2 as stated is false: on the capture whose ASCII text is
"xx,\x41\x00" with positions [0, 7, 8] and key size 3, gen_key returns
the key "010", not "101" (bit 0 is the most significant bit of 0x41,
which is 0). -/
theorem C2_counterexample :
    gen_key 3 [120, 120, 44, 65, 0] [0, 7, 8] = .ok ['0', '1', '0']
    ∧ gen_key 3 [120, 120, 44, 65, 0] [0, 7, 8] ≠ .ok ['1', '0', '1'] := by
  decide

/-- C2 (amended): gen_key on the capture whose ASCII text is
"xx,\x41\x00" with position list [0, 7, 8] and key size 3 returns the
derived key "010": bit 0 is the most significant bit of 0x41 (0), bit 7
is the least significant bit of 0x41 (1), bit 8 is the most significant
bit of 0x00 (0). -/
theorem C2_key_value :
    gen_key 3 [120, 120, 44, 65, 0] [0, 7, 8] = .ok ['0', '1', '0'] := by
  decide

/-- C3: the claim that the scan stops at capture exhaustion with a short
output is contradicted by the code, which has no end-of-input check:
exhausting the capture with the position list still pending walks the
read pointer past the end of the captured byte sequence, both when the
capture ends right after the comma and when a pending position lies
beyond the last captured bit. -/
theorem C3_reads_past_capture :
    gen_key 1 [120, 44] [0] = .oob []
    ∧ gen_key 1 [120, 44, 65] [9] = .oob [] := by
  decide

/-- C4: the claim that invalid position lists fail validation is
contradicted by the code, which validates nothing: a position list longer
than the key size writes past the fixed key-size output buffer
(result[1] with key size 1), and a non-increasing position list is
silently never matched again, running the scan off the end of the
capture instead of failing. -/
theorem C4_no_validation :
    gen_key 1 [120, 44, 65] [0, 1] = .overflow ['0']
    ∧ gen_key 2 [120, 44, 65] [5, 2] = .oob ['0'] := by
  decide

/-- C5: within one pass, an END step increments the round counter by
exactly one, a PANIC step leaves it unchanged, and a pass entered with the
interrupt flag clear raises the counter by exactly the number of END
events that fire, irrespective of how many PANIC events occur. -/
theorem C5_end_counts (cfg : MarkerConfig) (m : Nat) :
    (∀ (s : LoopState) (b : Byte), firedEvent cfg s.lastChar b = some .eend →
        (loopStep cfg m s b).count = s.count + 1)
    ∧ (∀ (s : LoopState) (b : Byte), firedEvent cfg s.lastChar b = some .epanic →
        (loopStep cfg m s b).count = s.count)
    ∧ (∀ (s : LoopState) (l : List Byte), s.interrupt = false →
        (loopRun cfg m s l).count = s.count + passEndCount cfg s.lastChar l) := by
  refine ⟨?_, ?_, ?_⟩
  · intro s b h
    rw [loopStep_count, if_pos h]
  · intro s b h
    rw [loopStep_count, if_neg (by simp [h])]
  · exact fun s l h => loopRun_count_passEnd cfg m l s h

/-- Closed instance of C5 at the concrete configuration: an END pair step
from counter 5 reaches 6, a PANIC pair step keeps 5, and a pass seeing one
END then PANIC (with a further END beyond the interrupt, never processed)
adds exactly the one fired END. -/
theorem C5_end_counts_witness :
    (loopStep cfgW 7 sE5 4).count = sE5.count + 1
    ∧ (loopStep cfgW 7 sP5 12).count = sP5.count
    ∧ (loopRun cfgW 7 (initLoopState 5 false []) [3, 4, 11, 12, 3, 4]).count
        = (initLoopState 5 false []).count
          + passEndCount cfgW (initLoopState 5 false []).lastChar [3, 4, 11, 12, 3, 4] :=
  ⟨(C5_end_counts cfgW 7).1 sE5 4 (by decide),
   (C5_end_counts cfgW 7).2.1 sP5 12 (by decide),
   (C5_end_counts cfgW 7).2.2 (initLoopState 5 false []) [3, 4, 11, 12, 3, 4] (by decide)⟩

/-- C8 as stated is false: for the released parameter [97, 98] the
transmitted bytes are [97, 98, 13] — the parameter is not itself
terminated by a carriage return before the separate bare carriage return,
so only one 13 is sent, not two. -/
theorem C8_counterexample :
    injectorRun 1 [[97, 98]] = [97, 98, 13]
    ∧ injectorRun 1 [[97, 98]] ≠ [97, 98, 13, 13] := by
  decide

/-- C8 (amended): for every parameter released by a may-send grant, the
transmitted bytes are the parameter string followed by exactly one bare
carriage return (sent separately after the flush and settle wait); the
whole transmitted trace is the concatenation of parameter-plus-one-CR
blocks for exactly the granted parameters in order. -/
theorem C8_one_cr_per_param (g : Nat) (ps : List (List Byte)) :
    injectorRun g ps = ((ps.take g).map injectorSend).flatten := by
  induction ps generalizing g with
  | nil => cases g <;> rfl
  | cons p ps ih =>
      cases g with
      | zero => rfl
      | succ g => simp [injectorRun, ih]

/-- C9: no marker event resets the in-capture byte counter, so it is
monotonically non-decreasing across a pass; consequently, when a START
fires while the counter already exceeds one (as after any earlier capture
of the same pass), the write gate is open on that very step and the first
byte of the START sentinel of that capture — the previous byte — is
appended to the sink. -/
theorem C9_counter_persists (cfg : MarkerConfig) (m : Nat) :
    (∀ (s : LoopState) (l : List Byte), s.charCount ≤ (loopRun cfg m s l).charCount)
    ∧ (∀ (s : LoopState) (b : Byte), firedEvent cfg s.lastChar b = some .estart →
        1 < s.charCount → (loopStep cfg m s b).sink = s.sink ++ [s.lastChar]) := by
  constructor
  · exact fun s l => loopRun_charCount_le cfg m l s
  · intro s b h hc
    simp [loopStep, h, hc]

/-- Closed instance of C9 at the concrete configuration: the counter never
decreases over a concrete pass, and a second START firing with counter 2
appends the first byte of the START sentinel to the sink. -/
theorem C9_counter_persists_witness :
    (initLoopState 0 false []).charCount
      ≤ (loopRun cfgW 0 (initLoopState 0 false []) [1, 2, 65]).charCount
    ∧ (loopStep cfgW 0 sC9 2).sink = sC9.sink ++ [sC9.lastChar] :=
  ⟨(C9_counter_persists cfgW 0).1 (initLoopState 0 false []) [1, 2, 65],
   (C9_counter_persists cfgW 0).2 sC9 2 (by decide) (by decide)⟩

/-- C10: every marker branch other than ASK_INPUT leaves the may-send
signal unchanged, an ASK_INPUT step sets it, the scanner never clears it
for the remainder of the pass, and an injector task holding one
pre-existing grant transmits its first parameter without any further
ASK_INPUT grant. -/
theorem C10_maysend_frame (cfg : MarkerConfig) (m : Nat) :
    (∀ (s : LoopState) (b : Byte), firedEvent cfg s.lastChar b ≠ some .easkInput →
        (loopStep cfg m s b).expectInput = s.expectInput)
    ∧ (∀ (s : LoopState) (b : Byte), firedEvent cfg s.lastChar b = some .easkInput →
        (loopStep cfg m s b).expectInput = true)
    ∧ (∀ (s : LoopState) (l : List Byte), s.expectInput = true →
        (loopRun cfg m s l).expectInput = true)
    ∧ (∀ (p : List Byte) (ps : List (List Byte)), injectorRun 1 (p :: ps) = injectorSend p) := by
  refine ⟨?_, ?_, ?_, ?_⟩
  · intro s b h
    rw [loopStep_expectInput, if_neg h]
  · intro s b h
    rw [loopStep_expectInput, if_pos h]
  · exact fun s l h => loopRun_expectInput_true cfg m l s h
  · intro p ps
    cases ps <;> simp [injectorRun]

/-- Closed instance of C10 at the concrete configuration: a START step
leaves the clear may-send signal clear, an ASK_INPUT step sets it, a set
signal survives a pass over further markers, and one pre-existing grant
releases the first parameter. -/
theorem C10_maysend_frame_witness :
    (loopStep cfgW 0 sC10 2).expectInput = sC10.expectInput
    ∧ (loopStep cfgW 0 sC10b 8).expectInput = true
    ∧ (loopRun cfgW 0 (initLoopState 0 true []) [5, 6, 1, 2]).expectInput = true
    ∧ injectorRun 1 [[97], [98]] = injectorSend [97] :=
  ⟨(C10_maysend_frame cfgW 0).1 sC10 2 (by decide),
   (C10_maysend_frame cfgW 0).2.1 sC10b 8 (by decide),
   (C10_maysend_frame cfgW 0).2.2.1 (initLoopState 0 true []) [5, 6, 1, 2] (by decide),
   (C10_maysend_frame cfgW 0).2.2.2 [97] [[98]]⟩

/-- A driver whose keep-going flag is cleared starts no further round. -/
theorem runMulti_stop (cfg : MarkerConfig) (m : Nat) (d : DriverState)
    (sts : List (List Byte)) (h : d.running = false) : runMulti cfg m d sts = d := by
  cases sts <;> simp [runMulti, h]

/-- Unfolding one driver round while the keep-going flag is set. -/
theorem runMulti_round (cfg : MarkerConfig) (m : Nat) (d : DriverState) (st : List Byte)
    (sts : List (List Byte)) (h : d.running = true) :
    runMulti cfg m d (st :: sts) =
      runMulti cfg m
        { running := (loopRun cfg m (initLoopState d.count d.expectInput []) st).running,
          count := (loopRun cfg m (initLoopState d.count d.expectInput []) st).count,
          expectInput := (loopRun cfg m (initLoopState d.count d.expectInput []) st).expectInput,
          roundsStarted := d.roundsStarted + 1,
          sink := (loopRun cfg m (initLoopState d.count d.expectInput []) st).sink } sts := by
  simp [runMulti, h]

/-- A fresh pass over a stream firing exactly one END raises the counter
by one and keeps going exactly while the new counter is below the
maximum. -/
theorem pass_one_end (cfg : MarkerConfig) (m : Nat) (hm : 0 < m) (st : List Byte)
    (c : Nat) (e : Bool) (h1 : passEndCount cfg 32 st = 1) (hc : c < m) :
    (loopRun cfg m (initLoopState c e []) st).count = c + 1
    ∧ ((loopRun cfg m (initLoopState c e []) st).running = true ↔ c + 1 < m) := by
  have hcount : (loopRun cfg m (initLoopState c e []) st).count = c + 1 := by
    have h := loopRun_count_passEnd cfg m st (initLoopState c e []) rfl
    simpa [initLoopState, h1] using h
  refine ⟨hcount, ?_⟩
  have hinv := loopRun_running_inv cfg m hm st (initLoopState c e [])
    (by simp [initLoopState, hc])
  rw [hcount] at hinv
  exact hinv

/-- C6: configured with a maximum of three rounds, and with every round
stream firing exactly one END event, the driver starts exactly three
rounds — it does not stop before the third END, and no fourth round
capture is ever begun, however many further round streams are available —
and the final round counter is three. -/
theorem C6_stops_after_third_end (cfg : MarkerConfig) (streams : List (List Byte))
    (hlen : 3 ≤ streams.length)
    (hone : ∀ st ∈ streams, passEndCount cfg 32 st = 1) :
    (runMulti cfg 3 initDriver streams).roundsStarted = 3
    ∧ (runMulti cfg 3 initDriver streams).count = 3 := by
  rcases streams with _ | ⟨s1, _ | ⟨s2, _ | ⟨s3, rest⟩⟩⟩
  · simp at hlen
  · simp at hlen
  · simp at hlen
  · have h1 : passEndCount cfg 32 s1 = 1 := hone s1 (by simp)
    have h2 : passEndCount cfg 32 s2 = 1 := hone s2 (by simp)
    have h3 : passEndCount cfg 32 s3 = 1 := hone s3 (by simp)
    obtain ⟨hc1, hr1⟩ := pass_one_end cfg 3 (by norm_num) s1 0 false h1 (by norm_num)
    rw [runMulti_round cfg 3 initDriver s1 _ rfl]
    simp only [initDriver]
    rw [runMulti_round cfg 3 _ s2 _ (hr1.mpr (by norm_num))]
    simp only [hc1]
    obtain ⟨hc2, hr2⟩ := pass_one_end cfg 3 (by norm_num) s2 1
      (loopRun cfg 3 (initLoopState 0 false []) s1).expectInput h2 (by norm_num)
    rw [runMulti_round cfg 3 _ s3 _ (hr2.mpr (by norm_num))]
    simp only [hc2]
    obtain ⟨hc3, hr3⟩ := pass_one_end cfg 3 (by norm_num) s3 2
      (loopRun cfg 3 (initLoopState 1 (loopRun cfg 3 (initLoopState 0 false []) s1).expectInput []) s2).expectInput
      h3 (by norm_num)
    rw [runMulti_stop cfg 3 _ rest (by
      have := hr3
      rcases hb : (loopRun cfg 3 (initLoopState 2 _ []) s3).running
      · rfl
      · exact absurd (this.mp hb) (by norm_num))]
    simp [hc3]

/-- Closed instance of C6 at the concrete configuration: four identical
one-END round streams are available, and the driver starts exactly three
rounds, ending with counter three. -/
theorem C6_stops_after_third_end_witness :
    3 ≤ ([[3, 4, 9, 10], [3, 4, 9, 10], [3, 4, 9, 10], [3, 4, 9, 10]] : List (List Byte)).length
    ∧ (∀ st ∈ ([[3, 4, 9, 10], [3, 4, 9, 10], [3, 4, 9, 10], [3, 4, 9, 10]] :
          List (List Byte)), passEndCount cfgW 32 st = 1)
    ∧ (runMulti cfgW 3 initDriver
        [[3, 4, 9, 10], [3, 4, 9, 10], [3, 4, 9, 10], [3, 4, 9, 10]]).roundsStarted = 3
    ∧ (runMulti cfgW 3 initDriver
        [[3, 4, 9, 10], [3, 4, 9, 10], [3, 4, 9, 10], [3, 4, 9, 10]]).count = 3 :=
  ⟨by decide, by decide,
   (C6_stops_after_third_end cfgW _ (by decide) (by decide)).1,
   (C6_stops_after_third_end cfgW _ (by decide) (by decide)).2⟩

/-- A single-shot driver whose while condition fails starts no further
round. -/
theorem runSingle_stop (cfg : MarkerConfig) (m : Nat) (d : DriverState)
    (sts : List (List Byte)) (h : ¬(d.running = true ∧ d.count = 0)) :
    runSingle cfg m d sts = d := by
  cases sts <;> simp [runSingle, h]

/-- The round tally never decreases through the single-shot driver. -/
theorem runSingle_roundsStarted_le (cfg : MarkerConfig) (m : Nat) :
    ∀ (sts : List (List Byte)) (d : DriverState),
      d.roundsStarted ≤ (runSingle cfg m d sts).roundsStarted := by
  intro sts
  induction sts with
  | nil => intro d; exact Nat.le_refl _
  | cons st sts ih =>
      intro d
      by_cases h : d.running = true ∧ d.count = 0
      · simp only [runSingle, h, and_self, if_true]
        refine Nat.le_trans ?_ (ih _)
        show d.roundsStarted ≤ d.roundsStarted + 1
        omega
      · simp [runSingle, h]

/-- Unfolding one single-shot round while the while condition holds. -/
theorem runSingle_round (cfg : MarkerConfig) (m : Nat) (d : DriverState) (st : List Byte)
    (sts : List (List Byte)) (hr : d.running = true) (hc : d.count = 0) :
    runSingle cfg m d (st :: sts) =
      runSingle cfg m
        { running := (loopRun cfg m (initLoopState d.count d.expectInput d.sink) st).running,
          count := (loopRun cfg m (initLoopState d.count d.expectInput d.sink) st).count,
          expectInput := (loopRun cfg m (initLoopState d.count d.expectInput d.sink) st).expectInput,
          roundsStarted := d.roundsStarted + 1,
          sink := (loopRun cfg m (initLoopState d.count d.expectInput d.sink) st).sink } sts := by
  simp [runSingle, hr, hc]

/-- C7 (amended): the single-shot driver stops after the first round whose
pass fires at least one END event (so with max-measures one, exactly one
round runs when the round captures), but a round that ends with the
counter still zero and the keep-going flag still set — a PANIC or FINISHED
without any END — is followed by another reset-and-scan round rather than
a hard stop at round index zero. -/
theorem C7_single_shot_retry (cfg : MarkerConfig) (m : Nat) :
    (∀ (d : DriverState) (st : List Byte) (sts : List (List Byte)),
        d.running = true → d.count = 0 →
        0 < (loopRun cfg m (initLoopState d.count d.expectInput d.sink) st).count →
        (runSingle cfg m d (st :: sts)).roundsStarted = d.roundsStarted + 1)
    ∧ (∀ (d : DriverState) (st st2 : List Byte) (sts : List (List Byte)),
        d.running = true → d.count = 0 →
        (loopRun cfg m (initLoopState d.count d.expectInput d.sink) st).count = 0 →
        (loopRun cfg m (initLoopState d.count d.expectInput d.sink) st).running = true →
        d.roundsStarted + 2 ≤ (runSingle cfg m d (st :: st2 :: sts)).roundsStarted) := by
  constructor
  · intro d st sts hr hc hpos
    rw [runSingle_round cfg m d st sts hr hc,
        runSingle_stop cfg m _ sts (by simp; intro _; omega)]
  · intro d st st2 sts hr hc hz hrun
    rw [runSingle_round cfg m d st (st2 :: sts) hr hc,
        runSingle_round cfg m _ st2 sts hrun hz]
    refine Nat.le_trans ?_ (runSingle_roundsStarted_le cfg m sts _)
    show d.roundsStarted + 2 ≤ d.roundsStarted + 1 + 1
    omega

/-- C7 as stated is false: at the concrete configuration with max-measures
one (as in gen_key), a first round ending in PANIC with no END is followed
by a second round — the driver is not hard-stopped after round index zero. -/
theorem C7_counterexample :
    (runSingle cfgW 1 initDriver [[11, 12], [3, 4]]).roundsStarted = 2
    ∧ (runSingle cfgW 1 initDriver [[11, 12], [3, 4]]).roundsStarted ≠ 1 := by
  decide

/-- Closed instance of the amended C7 at the concrete configuration: a
round firing END stops the driver after one round, and a PANIC round is
followed by a second round. -/
theorem C7_single_shot_retry_witness :
    (runSingle cfgW 1 initDriver [[3, 4]]).roundsStarted = initDriver.roundsStarted + 1
    ∧ initDriver.roundsStarted + 2
        ≤ (runSingle cfgW 1 initDriver [[11, 12], [3, 4], [5, 6]]).roundsStarted :=
  ⟨(C7_single_shot_retry cfgW 1).1 initDriver [3, 4] [] rfl rfl (by decide),
   (C7_single_shot_retry cfgW 1).2 initDriver [11, 12] [3, 4] [[5, 6]] rfl rfl
     (by decide) (by decide)⟩
